import Mathlib

/-!
Verification of the overlay transform & layer-compositing engine of the
gtaw-chatlog-magician-tr repository.

The JavaScript source is shallowly embedded: numbers become `ℚ`, DOM element
geometry becomes an explicit record, a possibly-missing DOM element becomes an
`Option`, and JavaScript numeric truthiness (`a || b`) becomes `jsOr`.
-/

namespace ChatlogMagician

/-- The 2D transform state, as in the `imageTransform` / `chatTransform` objects of
the source: translation in container pixel space plus a uniform scale. -/
structure Transform where
  x : ℚ
  y : ℚ
  scale : ℚ
deriving DecidableEq, Repr

/-- The translation-bounds record returned by `calculateImageBounds`. -/
structure Bounds where
  minX : ℚ
  maxX : ℚ
  minY : ℚ
  maxY : ℚ
deriving DecidableEq, Repr

/-- The `BOUNDS_FALLBACK` constant of the source. -/
def BOUNDS_FALLBACK : Bounds :=
  { minX := -10000, maxX := 10000, minY := -10000, maxY := 10000 }

/-- The `ZOOM_MIN_SCALE` constant of the source (0.1). -/
def ZOOM_MIN_SCALE : ℚ := 1 / 10

/-- The `ZOOM_MAX_SCALE` constant of the source (5.0). -/
def ZOOM_MAX_SCALE : ℚ := 5

/-- Geometry of a rendered DOM element: its `offsetWidth` / `offsetHeight`. -/
structure ElemGeom where
  offsetWidth : ℚ
  offsetHeight : ℚ
deriving DecidableEq, Repr

/-- JavaScript `a || b` on numbers: yields `b` when `a` is falsy (zero), else `a`. -/
def jsOr (a b : ℚ) : ℚ := if a = 0 then b else a

/-- Everything `calculateImageBounds` reads: the optional `overlayImage` element,
the stored `displayDimensions`, the optional dropzone element, the stored
fallback `dropZoneWidth` / `dropZoneHeight`, the image `basePosition`, and the
current `imageTransform.scale`. -/
structure BoundsEnv where
  img : Option ElemGeom
  displayDimWidth : ℚ
  displayDimHeight : ℚ
  dropzone : Option ElemGeom
  dropZoneWidth : ℚ
  dropZoneHeight : ℚ
  basePositionX : ℚ
  basePositionY : ℚ
  scale : ℚ
deriving DecidableEq, Repr

/-- Function `calculateImageBounds` from the source, line for line: missing image or
dropzone, or zero display dimensions, yield `BOUNDS_FALLBACK`; otherwise the
min/max translation range is computed from the edge limits. -/
def calculateImageBounds (env : BoundsEnv) : Bounds :=
  match env.img with
  | none => BOUNDS_FALLBACK
  | some img =>
    let displayWidth := jsOr env.displayDimWidth img.offsetWidth
    let displayHeight := jsOr env.displayDimHeight img.offsetHeight
    if displayWidth = 0 ∨ displayHeight = 0 then BOUNDS_FALLBACK
    else
      match env.dropzone with
      | none => BOUNDS_FALLBACK
      | some dropzone =>
        let dropzoneWidth := jsOr dropzone.offsetWidth env.dropZoneWidth
        let dropzoneHeight := jsOr dropzone.offsetHeight env.dropZoneHeight
        let imageCenterX := env.basePositionX + displayWidth / 2
        let imageCenterY := env.basePositionY + displayHeight / 2
        let scaledWidth := displayWidth * env.scale
        let scaledHeight := displayHeight * env.scale
        let leftEdgeLimit := min 0 (-(scaledWidth - dropzoneWidth))
        let minX := leftEdgeLimit - imageCenterX + scaledWidth / 2
        let rightEdgeLimit := max dropzoneWidth scaledWidth
        let maxX := rightEdgeLimit - imageCenterX - scaledWidth / 2
        let topEdgeLimit := min 0 (-(scaledHeight - dropzoneHeight))
        let minY := topEdgeLimit - imageCenterY + scaledHeight / 2
        let bottomEdgeLimit := max dropzoneHeight scaledHeight
        let maxY := bottomEdgeLimit - imageCenterY - scaledHeight / 2
        { minX := minX, maxX := maxX, minY := minY, maxY := maxY }

/-- Evaluation lemma: in the non-degenerate case `calculateImageBounds` is the
edge-limit arithmetic of the source, written out. -/
theorem calculateImageBounds_eval (env : BoundsEnv) (img dz : ElemGeom)
    (himg : env.img = some img) (hdz : env.dropzone = some dz)
    (hdw : jsOr env.displayDimWidth img.offsetWidth ≠ 0)
    (hdh : jsOr env.displayDimHeight img.offsetHeight ≠ 0) :
    calculateImageBounds env =
      { minX := min 0 (-(jsOr env.displayDimWidth img.offsetWidth * env.scale
                  - jsOr dz.offsetWidth env.dropZoneWidth))
              - (env.basePositionX + jsOr env.displayDimWidth img.offsetWidth / 2)
              + jsOr env.displayDimWidth img.offsetWidth * env.scale / 2
        maxX := max (jsOr dz.offsetWidth env.dropZoneWidth)
                  (jsOr env.displayDimWidth img.offsetWidth * env.scale)
              - (env.basePositionX + jsOr env.displayDimWidth img.offsetWidth / 2)
              - jsOr env.displayDimWidth img.offsetWidth * env.scale / 2
        minY := min 0 (-(jsOr env.displayDimHeight img.offsetHeight * env.scale
                  - jsOr dz.offsetHeight env.dropZoneHeight))
              - (env.basePositionY + jsOr env.displayDimHeight img.offsetHeight / 2)
              + jsOr env.displayDimHeight img.offsetHeight * env.scale / 2
        maxY := max (jsOr dz.offsetHeight env.dropZoneHeight)
                  (jsOr env.displayDimHeight img.offsetHeight * env.scale)
              - (env.basePositionY + jsOr env.displayDimHeight img.offsetHeight / 2)
              - jsOr env.displayDimHeight img.offsetHeight * env.scale / 2 } := by
  have hcond : ¬(jsOr env.displayDimWidth img.offsetWidth = 0 ∨
      jsOr env.displayDimHeight img.offsetHeight = 0) := by
    push_neg
    exact ⟨hdw, hdh⟩
  simp only [calculateImageBounds, himg, hdz]
  rw [if_neg hcond]

/-- C1: with container size `W` (nonzero, element present), element display size
`d`, base position `b`, scale `s`, center `C = b + d/2` and scaled half-extent
`H = d*s/2`, `calculateImageBounds` returns exactly
`minX = min 0 (-(2H - W)) - C + H` and `maxX = max W (2H) - C - H` on the X
axis, and the symmetric values on the Y axis. -/
theorem calculateImageBounds_formula (env : BoundsEnv) (img dz : ElemGeom)
    (himg : env.img = some img) (hdz : env.dropzone = some dz)
    (hdw : jsOr env.displayDimWidth img.offsetWidth ≠ 0)
    (hdh : jsOr env.displayDimHeight img.offsetHeight ≠ 0)
    (hW : jsOr dz.offsetWidth env.dropZoneWidth ≠ 0)
    (hH : jsOr dz.offsetHeight env.dropZoneHeight ≠ 0) :
    calculateImageBounds env =
      { minX := min 0 (-(2 * (jsOr env.displayDimWidth img.offsetWidth * env.scale / 2)
                  - jsOr dz.offsetWidth env.dropZoneWidth))
              - (env.basePositionX + jsOr env.displayDimWidth img.offsetWidth / 2)
              + jsOr env.displayDimWidth img.offsetWidth * env.scale / 2
        maxX := max (jsOr dz.offsetWidth env.dropZoneWidth)
                  (2 * (jsOr env.displayDimWidth img.offsetWidth * env.scale / 2))
              - (env.basePositionX + jsOr env.displayDimWidth img.offsetWidth / 2)
              - jsOr env.displayDimWidth img.offsetWidth * env.scale / 2
        minY := min 0 (-(2 * (jsOr env.displayDimHeight img.offsetHeight * env.scale / 2)
                  - jsOr dz.offsetHeight env.dropZoneHeight))
              - (env.basePositionY + jsOr env.displayDimHeight img.offsetHeight / 2)
              + jsOr env.displayDimHeight img.offsetHeight * env.scale / 2
        maxY := max (jsOr dz.offsetHeight env.dropZoneHeight)
                  (2 * (jsOr env.displayDimHeight img.offsetHeight * env.scale / 2))
              - (env.basePositionY + jsOr env.displayDimHeight img.offsetHeight / 2)
              - jsOr env.displayDimHeight img.offsetHeight * env.scale / 2 } := by
  rw [calculateImageBounds_eval env img dz himg hdz hdw hdh]
  simp only [Bounds.mk.injEq]
  refine ⟨by ring_nf, by ring_nf, by ring_nf, by ring_nf⟩

/-- Concrete environment for evaluating the bounds formula: 100×100 element at
base (0,0), scale 1, inside an 800×600 dropzone. -/
def envC1 : BoundsEnv :=
  { img := some { offsetWidth := 100, offsetHeight := 100 }
    displayDimWidth := 100, displayDimHeight := 100
    dropzone := some { offsetWidth := 800, offsetHeight := 600 }
    dropZoneWidth := 800, dropZoneHeight := 600
    basePositionX := 0, basePositionY := 0
    scale := 1 }

/-- Witness for C1 at a concrete input. -/
theorem calculateImageBounds_formula_witness :
    calculateImageBounds envC1 = { minX := 0, maxX := 700, minY := 0, maxY := 500 } := by
  have h := calculateImageBounds_formula envC1
    { offsetWidth := 100, offsetHeight := 100 }
    { offsetWidth := 800, offsetHeight := 600 }
    rfl rfl (by norm_num [jsOr, envC1]) (by norm_num [jsOr, envC1])
    (by norm_num [jsOr, envC1]) (by norm_num [jsOr, envC1])
  rw [h]
  norm_num [envC1, jsOr, min_def, max_def]

/-- One axis of the bounds arithmetic: the returned range is never empty. -/
theorem axis_min_le_max (W sw C : ℚ) :
    min 0 (-(sw - W)) - C + sw / 2 ≤ max W sw - C - sw / 2 := by
  have h1 : min 0 (-(sw - W)) ≤ 0 := min_le_left 0 _
  have h2 : sw ≤ max W sw := le_max_right W sw
  linarith

/-- One axis of the bounds arithmetic: when the scaled extent `sw` is
nonnegative and at most the container extent `W`, both element edges stay in
`[0, W]` at either extreme of the returned translation range. -/
theorem axis_edges_contained (W sw C : ℚ) (hW : 0 < W) (hsw : 0 ≤ sw)
    (hle : sw ≤ W) :
    (0 ≤ C + (min 0 (-(sw - W)) - C + sw / 2) - sw / 2 ∧
     C + (min 0 (-(sw - W)) - C + sw / 2) - sw / 2 ≤ W ∧
     0 ≤ C + (min 0 (-(sw - W)) - C + sw / 2) + sw / 2 ∧
     C + (min 0 (-(sw - W)) - C + sw / 2) + sw / 2 ≤ W) ∧
    (0 ≤ C + (max W sw - C - sw / 2) - sw / 2 ∧
     C + (max W sw - C - sw / 2) - sw / 2 ≤ W ∧
     0 ≤ C + (max W sw - C - sw / 2) + sw / 2 ∧
     C + (max W sw - C - sw / 2) + sw / 2 ≤ W) := by
  have hmin : min 0 (-(sw - W)) = 0 := min_eq_left (by linarith)
  have hmax : max W sw = W := max_eq_left hle
  rw [hmin, hmax]
  refine ⟨⟨by linarith, by linarith, by linarith, by linarith⟩,
    ⟨by linarith, by linarith, by linarith, by linarith⟩⟩

/-- C2 (amended): for every nonnegative scale and positive container and
element sizes, `calculateImageBounds` returns `minX ≤ maxX` and `minY ≤ maxY`
(this part for every scale, even negative); and whenever the scaled element
size is at most the container size on an axis, placing the translation at
either extreme of the range keeps both element edges inside `[0, W]` on that
axis. The nonnegative-scale hypothesis is needed for the containment part. -/
theorem calculateImageBounds_range_safe (env : BoundsEnv) (img dz : ElemGeom)
    (dw dh W Hc : ℚ)
    (himg : env.img = some img) (hdz : env.dropzone = some dz)
    (hdw : dw = jsOr env.displayDimWidth img.offsetWidth)
    (hdh : dh = jsOr env.displayDimHeight img.offsetHeight)
    (hW : W = jsOr dz.offsetWidth env.dropZoneWidth)
    (hHc : Hc = jsOr dz.offsetHeight env.dropZoneHeight)
    (hdwpos : 0 < dw) (hdhpos : 0 < dh) (hWpos : 0 < W) (hHcpos : 0 < Hc) :
    ((calculateImageBounds env).minX ≤ (calculateImageBounds env).maxX ∧
     (calculateImageBounds env).minY ≤ (calculateImageBounds env).maxY) ∧
    (0 ≤ env.scale → dw * env.scale ≤ W →
      ∀ t, (t = (calculateImageBounds env).minX ∨ t = (calculateImageBounds env).maxX) →
        0 ≤ (env.basePositionX + dw / 2) + t - dw * env.scale / 2 ∧
        (env.basePositionX + dw / 2) + t - dw * env.scale / 2 ≤ W ∧
        0 ≤ (env.basePositionX + dw / 2) + t + dw * env.scale / 2 ∧
        (env.basePositionX + dw / 2) + t + dw * env.scale / 2 ≤ W) ∧
    (0 ≤ env.scale → dh * env.scale ≤ Hc →
      ∀ t, (t = (calculateImageBounds env).minY ∨ t = (calculateImageBounds env).maxY) →
        0 ≤ (env.basePositionY + dh / 2) + t - dh * env.scale / 2 ∧
        (env.basePositionY + dh / 2) + t - dh * env.scale / 2 ≤ Hc ∧
        0 ≤ (env.basePositionY + dh / 2) + t + dh * env.scale / 2 ∧
        (env.basePositionY + dh / 2) + t + dh * env.scale / 2 ≤ Hc) := by
  have heval := calculateImageBounds_eval env img dz himg hdz
    (by rw [← hdw]; exact ne_of_gt hdwpos) (by rw [← hdh]; exact ne_of_gt hdhpos)
  rw [heval]
  constructor
  · exact ⟨by rw [← hdw, ← hW]; exact axis_min_le_max _ _ _,
      by rw [← hdh, ← hHc]; exact axis_min_le_max _ _ _⟩
  constructor
  · intro hs hsw t ht
    have h := axis_edges_contained W (dw * env.scale)
      (env.basePositionX + dw / 2) hWpos (mul_nonneg hdwpos.le hs) hsw
    rcases ht with rfl | rfl
    · simpa only [← hdw, ← hW] using h.1
    · simpa only [← hdw, ← hW] using h.2
  · intro hs hsw t ht
    have h := axis_edges_contained Hc (dh * env.scale)
      (env.basePositionY + dh / 2) hHcpos (mul_nonneg hdhpos.le hs) hsw
    rcases ht with rfl | rfl
    · simpa only [← hdh, ← hHc] using h.1
    · simpa only [← hdh, ← hHc] using h.2

/-- Environment exhibiting the failure of the unamended C2: scale is -1, the
element is 50×50 in a 100×100 container. -/
def envC2x : BoundsEnv :=
  { img := some { offsetWidth := 50, offsetHeight := 50 }
    displayDimWidth := 50, displayDimHeight := 50
    dropzone := some { offsetWidth := 100, offsetHeight := 100 }
    dropZoneWidth := 100, dropZoneHeight := 100
    basePositionX := 0, basePositionY := 0
    scale := -1 }

/-- Counterexample to C2 as stated: at scale -1 the scaled element size
(50 * -1 = -50) is at most the container size (100), yet at translation `minX`
the element's right edge `C + minX + sw/2` lies at -50, outside the container.
So "for all scale values" fails; nonnegative scale is required. -/
theorem calculateImageBounds_negScale_escape :
    (50 : ℚ) * (-1) ≤ 100 ∧
    ((0 : ℚ) + 50 / 2) + (calculateImageBounds envC2x).minX + 50 * (-1) / 2 < 0 := by
  have h := calculateImageBounds_eval envC2x
    { offsetWidth := 50, offsetHeight := 50 }
    { offsetWidth := 100, offsetHeight := 100 }
    rfl rfl (by norm_num [jsOr, envC2x]) (by norm_num [jsOr, envC2x])
  rw [h]
  norm_num [envC2x, jsOr, min_def, max_def]

/-- Witness for C2 (amended) at a concrete input: 100×100 element at scale 1
inside an 800×600 container, checked at the `minX` extreme. -/
theorem calculateImageBounds_range_safe_witness :
    (calculateImageBounds envC1).minX ≤ (calculateImageBounds envC1).maxX ∧
    0 ≤ ((0 : ℚ) + 100 / 2) + (calculateImageBounds envC1).minX - 100 * 1 / 2 := by
  have h := calculateImageBounds_range_safe envC1
    { offsetWidth := 100, offsetHeight := 100 }
    { offsetWidth := 800, offsetHeight := 600 }
    100 100 800 600 rfl rfl
    (by norm_num [jsOr, envC1]) (by norm_num [jsOr, envC1])
    (by norm_num [jsOr, envC1]) (by norm_num [jsOr, envC1])
    (by norm_num) (by norm_num) (by norm_num) (by norm_num)
  refine ⟨h.1.1, ?_⟩
  have h2 := h.2.1 (by norm_num [envC1]) (by norm_num [envC1])
    (calculateImageBounds envC1).minX (Or.inl rfl)
  simpa [envC1] using h2.1

/-- Function `setChatScale` from the source: `Math.max(0.5, Math.min(2.0, scale))` is
stored as the new chat scale (the slider path). Returns the stored scale. -/
def setChatScale (scale : ℚ) : ℚ := max (1 / 2) (min 2 scale)

/-- Chat branch of the dropzone wheel handler: the step factor is 0.9 for a
positive `deltaY` and 1.1 otherwise, and the product with the current scale is
clamped to `[ZOOM_MIN_SCALE, ZOOM_MAX_SCALE]` = [0.1, 5.0]. -/
def wheelChatZoom (scale : ℚ) (deltaYPos : Bool) : ℚ :=
  let delta : ℚ := if deltaYPos then 9 / 10 else 11 / 10
  max ZOOM_MIN_SCALE (min ZOOM_MAX_SCALE (scale * delta))

/-- Counterexample to C3 as stated: starting from the chat scale 0.5 (itself
produced by `setChatScale`), one downward wheel notch yields 0.45, so the
wheel path does not keep the chat scale within [0.5, 2.0]. -/
theorem wheelChatZoom_below_half :
    wheelChatZoom (setChatScale (1 / 2)) true < 1 / 2 := by
  norm_num [wheelChatZoom, setChatScale, ZOOM_MIN_SCALE, ZOOM_MAX_SCALE,
    min_def, max_def]

/-- C3 (amended): `setChatScale` clamps its result to [0.5, 2.0], but the
modifier-key wheel zoom clamps to [`ZOOM_MIN_SCALE`, `ZOOM_MAX_SCALE`] =
[0.1, 5.0]; so across both operations only the weaker invariant
`scale ∈ [0.1, 5.0]` holds after every chat-scale operation. -/
theorem chatScale_clamp_bounds (s : ℚ) (d : Bool) :
    (1 / 2 ≤ setChatScale s ∧ setChatScale s ≤ 2) ∧
    (ZOOM_MIN_SCALE ≤ wheelChatZoom s d ∧ wheelChatZoom s d ≤ ZOOM_MAX_SCALE) ∧
    (ZOOM_MIN_SCALE ≤ setChatScale s ∧ setChatScale s ≤ ZOOM_MAX_SCALE) := by
  have hs1 : (1 : ℚ) / 2 ≤ setChatScale s := le_max_left _ _
  have hs2 : setChatScale s ≤ 2 := max_le (by norm_num) (min_le_left _ _)
  have hw1 : ZOOM_MIN_SCALE ≤ wheelChatZoom s d := le_max_left _ _
  have hw2 : wheelChatZoom s d ≤ ZOOM_MAX_SCALE := by
    unfold wheelChatZoom
    exact max_le (by norm_num [ZOOM_MIN_SCALE, ZOOM_MAX_SCALE]) (min_le_left _ _)
  refine ⟨⟨hs1, hs2⟩, ⟨hw1, hw2⟩, ?_, ?_⟩
  · calc ZOOM_MIN_SCALE ≤ 1 / 2 := by norm_num [ZOOM_MIN_SCALE]
      _ ≤ setChatScale s := hs1
  · calc setChatScale s ≤ 2 := hs2
      _ ≤ ZOOM_MAX_SCALE := by norm_num [ZOOM_MAX_SCALE]

/-- C9 (amended): `calculateImageBounds` returns the wide-open fallback
`BOUNDS_FALLBACK` exactly on a missing image element, a zero effective element
display size, or a missing dropzone element; a zero-size dropzone element does
not trigger the fallback (the stored dropzone size is substituted instead). -/
theorem calculateImageBounds_fallback_cases (env : BoundsEnv) :
    (env.img = none → calculateImageBounds env = BOUNDS_FALLBACK) ∧
    (∀ img, env.img = some img →
      (jsOr env.displayDimWidth img.offsetWidth = 0 ∨
       jsOr env.displayDimHeight img.offsetHeight = 0) →
      calculateImageBounds env = BOUNDS_FALLBACK) ∧
    (env.dropzone = none → calculateImageBounds env = BOUNDS_FALLBACK) := by
  refine ⟨?_, ?_, ?_⟩
  · intro h
    simp [calculateImageBounds, h]
  · intro img h hz
    simp only [calculateImageBounds, h]
    rw [if_pos hz]
  · intro h
    cases hi : env.img with
    | none => simp [calculateImageBounds, hi]
    | some img =>
      by_cases hz : jsOr env.displayDimWidth img.offsetWidth = 0 ∨
          jsOr env.displayDimHeight img.offsetHeight = 0
      · simp only [calculateImageBounds, hi]
        rw [if_pos hz]
      · simp only [calculateImageBounds, hi, h]
        rw [if_neg hz]

/-- Environment with the image missing. -/
def envC9w : BoundsEnv :=
  { img := none
    displayDimWidth := 0, displayDimHeight := 0
    dropzone := none
    dropZoneWidth := 800, dropZoneHeight := 600
    basePositionX := 0, basePositionY := 0
    scale := 1 }

/-- Witness for C9 (amended): a missing image element yields the fallback. -/
theorem calculateImageBounds_fallback_cases_witness :
    calculateImageBounds envC9w = BOUNDS_FALLBACK :=
  (calculateImageBounds_fallback_cases envC9w).1 rfl

/-- Environment with a zero-size dropzone element (a "zero-size container"):
the stored defaults 800×600 are substituted by the `||` chain. -/
def envC9x : BoundsEnv :=
  { img := some { offsetWidth := 100, offsetHeight := 100 }
    displayDimWidth := 100, displayDimHeight := 100
    dropzone := some { offsetWidth := 0, offsetHeight := 0 }
    dropZoneWidth := 800, dropZoneHeight := 600
    basePositionX := 0, basePositionY := 0
    scale := 1 }

/-- Counterexample to C9 as stated: with a zero-size dropzone element the
function does not return `BOUNDS_FALLBACK`; it substitutes the stored 800×600
and returns the ordinary bounds. -/
theorem calculateImageBounds_zero_container_no_fallback :
    calculateImageBounds envC9x = { minX := 0, maxX := 700, minY := 0, maxY := 500 } ∧
    calculateImageBounds envC9x ≠ BOUNDS_FALLBACK := by
  have h := calculateImageBounds_eval envC9x
    { offsetWidth := 100, offsetHeight := 100 }
    { offsetWidth := 0, offsetHeight := 0 }
    rfl rfl (by norm_num [jsOr, envC9x]) (by norm_num [jsOr, envC9x])
  rw [h]
  constructor
  · norm_num [envC9x, jsOr, min_def, max_def]
  · norm_num [envC9x, jsOr, min_def, max_def, BOUNDS_FALLBACK]

/-- One entry of `lineTransforms`: a line index with its dragged position. -/
structure LineTransform where
  lineIndex : Nat
  x : ℚ
  y : ℚ
deriving DecidableEq, Repr

/-- The JSON blob persisted by `saveChatSettings`, as read back: each field is
optional because a saved blob (or a hand-edited one) may lack it.
`snapEnabled` is `some b` exactly when the saved field is present and of
boolean type (`typeof settings.snapEnabled === 'boolean'`). -/
structure ChatSettingsBlob where
  chatTransform : Option Transform
  snapEnabled : Option Bool
  lineTransforms : Option (List LineTransform)
deriving DecidableEq, Repr

/-- The in-memory chat overlay state the settings loader touches. -/
structure ChatOverlayState where
  chatTransform : Transform
  lineTransforms : List LineTransform
  snapEnabled : Bool
deriving DecidableEq, Repr

/-- Function `loadChatSettings` from the source: `saved` is the parse result of the
persisted blob (`none` when the key is absent or reading/parsing threw, in
which case the catch leaves the state unchanged). The `chatTransform` and
`lineTransforms` restores are commented out in the source; only a boolean
`snapEnabled` is applied. -/
def loadChatSettings (saved : Option ChatSettingsBlob) (st : ChatOverlayState) :
    ChatOverlayState :=
  match saved with
  | none => st
  | some settings =>
    match settings.snapEnabled with
    | some b => { st with snapEnabled := b }
    | none => st

/-- C7: `loadChatSettings` restores only the `snapEnabled` flag; the
`chatTransform` and `lineTransforms` already in memory are unchanged, even
when the saved blob carries values for them. -/
theorem loadChatSettings_only_snap (saved : Option ChatSettingsBlob)
    (st : ChatOverlayState) :
    (loadChatSettings saved st).chatTransform = st.chatTransform ∧
    (loadChatSettings saved st).lineTransforms = st.lineTransforms ∧
    (∀ blob b, saved = some blob → blob.snapEnabled = some b →
      (loadChatSettings saved st).snapEnabled = b) ∧
    (∀ blob, saved = some blob → blob.snapEnabled = none →
      (loadChatSettings saved st).snapEnabled = st.snapEnabled) := by
  refine ⟨?_, ?_, ?_, ?_⟩
  · cases saved with
    | none => rfl
    | some blob =>
      cases hb : blob.snapEnabled with
      | none => simp [loadChatSettings, hb]
      | some b => simp [loadChatSettings, hb]
  · cases saved with
    | none => rfl
    | some blob =>
      cases hb : blob.snapEnabled with
      | none => simp [loadChatSettings, hb]
      | some b => simp [loadChatSettings, hb]
  · intro blob b hs hb
    subst hs
    simp [loadChatSettings, hb]
  · intro blob hs hb
    subst hs
    simp [loadChatSettings, hb]

/-- A saved blob that carries transform and line positions along with the
snap flag; the loader must drop everything but the flag. -/
def blobC7 : ChatSettingsBlob :=
  { chatTransform := some { x := 123, y := 45, scale := 2 }
    snapEnabled := some false
    lineTransforms := some [{ lineIndex := 0, x := 7, y := 8 }] }

/-- The in-memory defaults the loader starts from. -/
def stC7 : ChatOverlayState :=
  { chatTransform := { x := 0, y := 0, scale := 1 }
    lineTransforms := []
    snapEnabled := true }

/-- Witness for C7 at a concrete input. -/
theorem loadChatSettings_only_snap_witness :
    (loadChatSettings (some blobC7) stC7).chatTransform = stC7.chatTransform ∧
    (loadChatSettings (some blobC7) stC7).lineTransforms = stC7.lineTransforms ∧
    (loadChatSettings (some blobC7) stC7).snapEnabled = false := by
  have h := loadChatSettings_only_snap (some blobC7) stC7
  exact ⟨h.1, h.2.1, h.2.2.1 blobC7 false rfl rfl⟩

/-- Everything the image branch of the dropzone wheel handler reads: the wheel
direction, the pointer position relative to the dropzone, the stored base
position and display dimensions, and the current image transform. -/
structure WheelImageEnv where
  deltaYPos : Bool
  mouseX : ℚ
  mouseY : ℚ
  basePositionX : ℚ
  basePositionY : ℚ
  displayWidth : ℚ
  displayHeight : ℚ
  imageTransform : Transform
deriving DecidableEq, Repr

/-- Function `calculateMinScale` from the source: always 1.0. -/
def calculateMinScale : ℚ := 1

/-- Image branch of the dropzone wheel handler: the scale steps by 0.9/1.1 and
is clamped to `[calculateMinScale, ZOOM_MAX_SCALE]`; the translation is then
shifted by `mouseRel * (oldScale - newScale)` on each axis so the point under
the pointer stays fixed. -/
def wheelZoomImage (env : WheelImageEnv) : Transform :=
  let delta : ℚ := if env.deltaYPos then 9 / 10 else 11 / 10
  let minScale := calculateMinScale
  let oldScale := env.imageTransform.scale
  let newScale := max minScale (min ZOOM_MAX_SCALE (oldScale * delta))
  let imageCenterX := env.basePositionX + env.displayWidth / 2
  let imageCenterY := env.basePositionY + env.displayHeight / 2
  let mouseRelX := env.mouseX - imageCenterX - env.imageTransform.x
  let mouseRelY := env.mouseY - imageCenterY - env.imageTransform.y
  { x := env.imageTransform.x + mouseRelX * (oldScale - newScale)
    y := env.imageTransform.y + mouseRelY * (oldScale - newScale)
    scale := newScale }

/-- C8: the wheel-zoom translation delta is exactly
`pointerRelativeToCenter * (oldScale - newScale)` on each axis, where the
pointer offset is taken from the image's translated center; in particular a
pointer exactly at the translated center gives a zero translation delta. -/
theorem wheelZoomImage_anchor (env : WheelImageEnv) :
    ((wheelZoomImage env).x - env.imageTransform.x =
      (env.mouseX - (env.basePositionX + env.displayWidth / 2) - env.imageTransform.x) *
        (env.imageTransform.scale - (wheelZoomImage env).scale) ∧
     (wheelZoomImage env).y - env.imageTransform.y =
      (env.mouseY - (env.basePositionY + env.displayHeight / 2) - env.imageTransform.y) *
        (env.imageTransform.scale - (wheelZoomImage env).scale)) ∧
    (env.mouseX = (env.basePositionX + env.displayWidth / 2) + env.imageTransform.x →
      (wheelZoomImage env).x = env.imageTransform.x) ∧
    (env.mouseY = (env.basePositionY + env.displayHeight / 2) + env.imageTransform.y →
      (wheelZoomImage env).y = env.imageTransform.y) := by
  refine ⟨⟨by simp only [wheelZoomImage]; ring, by simp only [wheelZoomImage]; ring⟩, ?_, ?_⟩
  · intro h
    simp only [wheelZoomImage, h]
    ring
  · intro h
    simp only [wheelZoomImage, h]
    ring

/-- Concrete wheel event: pointer exactly at the translated center of an image
at scale 1. -/
def envC8 : WheelImageEnv :=
  { deltaYPos := false
    mouseX := 450, mouseY := 330
    basePositionX := 0, basePositionY := 0
    displayWidth := 800, displayHeight := 600
    imageTransform := { x := 50, y := 30, scale := 1 } }

/-- Witness for C8: with the pointer at the translated center the translation
delta is {0,0}. -/
theorem wheelZoomImage_anchor_witness :
    (wheelZoomImage envC8).x = 50 ∧ (wheelZoomImage envC8).y = 30 := by
  have h := wheelZoomImage_anchor envC8
  refine ⟨?_, ?_⟩
  · have := h.2.1 (by norm_num [envC8])
    simpa [envC8] using this
  · have := h.2.2 (by norm_num [envC8])
    simpa [envC8] using this

/-- Everything `applySnapToEdge` reads: the snap flag and threshold, the
optional dropzone and chat-overlay elements, and the current chat scale. The
source initialises `snapThreshold` to 20 pixels and never changes it. -/
structure SnapEnv where
  snapEnabled : Bool
  snapThreshold : ℚ
  dropzone : Option ElemGeom
  chatOverlay : Option ElemGeom
  chatScale : ℚ
deriving DecidableEq, Repr

/-- Function `applySnapToEdge` from the source: identity when snapping is disabled or an
element is missing; otherwise each axis snaps to the near edge, the far edge,
or the center whenever the raw coordinate is within `snapThreshold` of it (the
later checks reuse the raw coordinate, so a later match overrides an earlier
one). -/
def applySnapToEdge (env : SnapEnv) (x y : ℚ) : ℚ × ℚ :=
  if env.snapEnabled = false then (x, y)
  else
    match env.dropzone, env.chatOverlay with
    | some dropzone, some chatOverlay =>
      let threshold := env.snapThreshold
      let dropzoneWidth := dropzone.offsetWidth
      let dropzoneHeight := dropzone.offsetHeight
      let chatWidth := chatOverlay.offsetWidth * env.chatScale
      let chatHeight := chatOverlay.offsetHeight * env.chatScale
      let snappedX1 := if |x| < threshold then 0 else x
      let snappedX2 := if |x - (dropzoneWidth - chatWidth)| < threshold then
        dropzoneWidth - chatWidth else snappedX1
      let snappedX3 := if |x - (dropzoneWidth - chatWidth) / 2| < threshold then
        (dropzoneWidth - chatWidth) / 2 else snappedX2
      let snappedY1 := if |y| < threshold then 0 else y
      let snappedY2 := if |y - (dropzoneHeight - chatHeight)| < threshold then
        dropzoneHeight - chatHeight else snappedY1
      let snappedY3 := if |y - (dropzoneHeight - chatHeight) / 2| < threshold then
        (dropzoneHeight - chatHeight) / 2 else snappedY2
      (snappedX3, snappedY3)
    | _, _ => (x, y)

/-- One axis of the snap cascade: every branch moves the coordinate by strictly
less than the (positive) threshold, because each snap target is guarded by a
closeness test on the raw coordinate. -/
theorem snap_axis_close (t a b c v : ℚ) (ht : 0 < t) :
    |(if |v - c| < t then c
      else if |v - b| < t then b
      else if |v - a| < t then a else v) - v| < t := by
  by_cases h3 : |v - c| < t
  · rw [if_pos h3, abs_sub_comm]
    exact h3
  · rw [if_neg h3]
    by_cases h2 : |v - b| < t
    · rw [if_pos h2, abs_sub_comm]
      exact h2
    · rw [if_neg h2]
      by_cases h1 : |v - a| < t
      · rw [if_pos h1, abs_sub_comm]
        exact h1
      · rw [if_neg h1]
        simpa using ht

/-- C10: `applySnapToEdge` moves the position by strictly less than
`snapThreshold` on each axis (the threshold is positive; the source fixes it
at 20), and with snapping disabled it is the identity. -/
theorem applySnapToEdge_close (env : SnapEnv) (x y : ℚ)
    (ht : 0 < env.snapThreshold) :
    (|(applySnapToEdge env x y).1 - x| < env.snapThreshold ∧
     |(applySnapToEdge env x y).2 - y| < env.snapThreshold) ∧
    (env.snapEnabled = false → applySnapToEdge env x y = (x, y)) := by
  refine ⟨?_, fun h => by rw [applySnapToEdge, if_pos h]⟩
  cases hs : env.snapEnabled with
  | false =>
    rw [applySnapToEdge, if_pos hs]
    constructor <;> simpa using ht
  | true =>
    rw [applySnapToEdge, if_neg (by simp [hs])]
    cases hdz : env.dropzone with
    | none =>
      constructor <;> simpa using ht
    | some dz =>
      cases hco : env.chatOverlay with
      | none =>
        constructor <;> simpa using ht
      | some co =>
        simp only
        constructor
        · have h := snap_axis_close env.snapThreshold 0
            (dz.offsetWidth - co.offsetWidth * env.chatScale)
            ((dz.offsetWidth - co.offsetWidth * env.chatScale) / 2) x ht
          simpa [sub_zero] using h
        · have h := snap_axis_close env.snapThreshold 0
            (dz.offsetHeight - co.offsetHeight * env.chatScale)
            ((dz.offsetHeight - co.offsetHeight * env.chatScale) / 2) y ht
          simpa [sub_zero] using h

/-- Concrete snap state: 800×600 dropzone, 100×40 chat block at scale 1, the
source's 20-pixel threshold. -/
def envC10 : SnapEnv :=
  { snapEnabled := true
    snapThreshold := 20
    dropzone := some { offsetWidth := 800, offsetHeight := 600 }
    chatOverlay := some { offsetWidth := 100, offsetHeight := 40 }
    chatScale := 1 }

/-- Witness for C10 at a concrete input: a position 5 pixels from the left and
3 pixels from the bottom edge moves by less than the threshold. -/
theorem applySnapToEdge_close_witness :
    |(applySnapToEdge envC10 5 557).1 - 5| < envC10.snapThreshold ∧
    |(applySnapToEdge envC10 5 557).2 - 557| < envC10.snapThreshold := by
  have h := applySnapToEdge_close envC10 5 557 (by norm_num [envC10])
  exact h.1

/-- A layer's type tag: `'image'` or `'chat'`. -/
inductive LayerType where
  | image
  | chat
deriving DecidableEq, Repr

/-- A layer of the `LayerManager`, with the fields `createLayer` initialises. -/
structure Layer where
  id : String
  name : String
  type : LayerType
  imageSrc : Option String
  visible : Bool
  locked : Bool
  opacity : ℚ
  blur : ℚ
  grayscale : Bool
  transform : Transform
  zIndex : Nat
deriving DecidableEq, Repr

/-- The `LayerManager` state: the ordered stack, the selection, and the counter
behind `generateLayerId` (the source id is
layer_Date.now()_counter; the timestamp is dropped here, the
strictly increasing counter alone already makes ids unique). -/
structure LayerManager where
  layers : List Layer
  selectedLayerId : Option String
  nextLayerId : Nat
deriving DecidableEq, Repr

/-- Function `generateLayerId` for counter value `n`. -/
def generateLayerId (n : Nat) : String := "layer_" ++ toString n

/-- The manager as `init` leaves it: empty stack, nothing selected. -/
def initManager : LayerManager :=
  { layers := [], selectedLayerId := none, nextLayerId := 0 }

/-- Function `createLayer` from the source: a fresh id, the given type/name/source, all
effects at their defaults, and `zIndex := this.layers.length`. -/
def createLayer (m : LayerManager) (ty : LayerType) (name : String)
    (imageSrc : Option String) : Layer :=
  { id := generateLayerId m.nextLayerId
    name := name
    type := ty
    imageSrc := imageSrc
    visible := true
    locked := false
    opacity := 100
    blur := 0
    grayscale := false
    transform := { x := 0, y := 0, scale := 1 }
    zIndex := m.layers.length }

/-- Function `addImageLayer`: creates an image layer, appends it and selects it. -/
def addImageLayer (m : LayerManager) (src name : String) : Layer × LayerManager :=
  let layer := createLayer m .image name (some src)
  (layer,
   { layers := m.layers ++ [layer]
     selectedLayerId := some layer.id
     nextLayerId := m.nextLayerId + 1 })

/-- Function `addChatLayer`: returns the existing chat layer unchanged when one exists,
otherwise creates and appends one (selection is untouched). -/
def addChatLayer (m : LayerManager) : Layer × LayerManager :=
  match m.layers.find? (fun l => l.type == LayerType.chat) with
  | some existingChat => (existingChat, m)
  | none =>
    let layer := createLayer m .chat "Sohbet Metni" none
    (layer,
     { layers := m.layers ++ [layer]
       selectedLayerId := m.selectedLayerId
       nextLayerId := m.nextLayerId + 1 })

/-- JavaScript `Array.prototype.findIndex` on the id field; the source's -1
sentinel becomes `none`. -/
def findIndexId : List Layer → String → Option Nat
  | [], _ => none
  | l :: rest, id =>
    if l.id == id then some 0
    else (findIndexId rest id).map (· + 1)

/-- The `layers.forEach((layer, i) => layer.zIndex = i)` renumbering pass,
starting at index `i`. -/
def reindexFrom : Nat → List Layer → List Layer
  | _, [] => []
  | i, l :: rest => { l with zIndex := i } :: reindexFrom (i + 1) rest

/-- Renumbering from zero, as the source always does. -/
def reindex (ls : List Layer) : List Layer := reindexFrom 0 ls

/-- Function `removeLayer`: splice the layer out, renumber, and when the removed layer
was selected, select the new topmost layer or nothing. -/
def removeLayer (m : LayerManager) (id : String) : LayerManager :=
  match findIndexId m.layers id with
  | none => m
  | some i =>
    let layers := reindex (m.layers.eraseIdx i)
    let selected :=
      if m.selectedLayerId = some id then
        match layers.getLast? with
        | some topmost => some topmost.id
        | none => none
      else m.selectedLayerId
    { m with layers := layers, selectedLayerId := selected }

/-- Function `selectLayer`: a no-op for an unknown id. -/
def selectLayer (m : LayerManager) (id : String) : LayerManager :=
  match m.layers.find? (fun l => l.id == id) with
  | none => m
  | some _ => { m with selectedLayerId := some id }

/-- The destructuring swap of `layers[i]` and `layers[i+1]`. -/
def swapAdj : List Layer → Nat → List Layer
  | a :: b :: rest, 0 => b :: a :: rest
  | a :: rest, n + 1 => a :: swapAdj rest n
  | ls, _ => ls

/-- Function `moveLayerUp`: a no-op when the id is unknown or already topmost, else swap
with the layer above and renumber. -/
def moveLayerUp (m : LayerManager) (id : String) : LayerManager :=
  match findIndexId m.layers id with
  | none => m
  | some i =>
    if m.layers.length - 1 ≤ i then m
    else { m with layers := reindex (swapAdj m.layers i) }

/-- Function `moveLayerDown`: a no-op when the id is unknown or already at the bottom,
else swap with the layer below and renumber. -/
def moveLayerDown (m : LayerManager) (id : String) : LayerManager :=
  match findIndexId m.layers id with
  | none => m
  | some i =>
    if i = 0 then m
    else { m with layers := reindex (swapAdj m.layers (i - 1)) }

/-- The `toggleLayerVisibility` body on the stack: the source fetches the first
layer with the id (`getLayer`) and flips its `visible` flag in place. -/
def toggleVisibleFirst : List Layer → String → List Layer
  | [], _ => []
  | l :: rest, id =>
    if l.id == id then { l with visible := !l.visible } :: rest
    else l :: toggleVisibleFirst rest id

/-- Function `toggleLayerVisibility`: a no-op for an unknown id. -/
def toggleLayerVisibility (m : LayerManager) (id : String) : LayerManager :=
  { m with layers := toggleVisibleFirst m.layers id }

/-- The stack mutations of the public `LayerManager` API, as claim C4 lists
them plus selection and visibility. -/
inductive LayerOp where
  | addImage (src name : String)
  | addChat
  | remove (id : String)
  | moveUp (id : String)
  | moveDown (id : String)
  | select (id : String)
  | toggleVisibility (id : String)
deriving DecidableEq, Repr

/-- Apply one operation to the manager state. -/
def applyOp (m : LayerManager) : LayerOp → LayerManager
  | .addImage src name => (addImageLayer m src name).2
  | .addChat => (addChatLayer m).2
  | .remove id => removeLayer m id
  | .moveUp id => moveLayerUp m id
  | .moveDown id => moveLayerDown m id
  | .select id => selectLayer m id
  | .toggleVisibility id => toggleLayerVisibility m id

/-- Run a sequence of operations from the freshly initialised manager. -/
def runOps (ops : List LayerOp) : LayerManager := ops.foldl applyOp initManager

/-- The zIndex values are a dense permutation of `[0, N)` equal to the stack
order. -/
def DenseZ (ls : List Layer) : Prop := ls.map Layer.zIndex = List.range ls.length

/-- Renumbering zIndex does not change the ids. -/
theorem reindexFrom_map_id (i : Nat) (ls : List Layer) :
    (reindexFrom i ls).map Layer.id = ls.map Layer.id := by
  induction ls generalizing i with
  | nil => rfl
  | cons l rest ih => simp [reindexFrom, ih]

/-- Renumbering zIndex does not change the length. -/
theorem reindexFrom_length (i : Nat) (ls : List Layer) :
    (reindexFrom i ls).length = ls.length := by
  induction ls generalizing i with
  | nil => rfl
  | cons l rest ih => simp [reindexFrom, ih]

/-- Renumbering zIndex does not change where an id is found. -/
theorem findIndexId_reindexFrom (i : Nat) (ls : List Layer) (x : String) :
    findIndexId (reindexFrom i ls) x = findIndexId ls x := by
  induction ls generalizing i with
  | nil => rfl
  | cons l rest ih => simp [reindexFrom, findIndexId, ih]

/-- The adjacent swap on the id strings alone. -/
def swapIds : List String → Nat → List String
  | a :: b :: rest, 0 => b :: a :: rest
  | a :: rest, n + 1 => a :: swapIds rest n
  | ls, _ => ls

/-- Lemma: `swapAdj` projects to `swapIds` on the ids. -/
theorem swapAdj_map_id (ls : List Layer) (i : Nat) :
    (swapAdj ls i).map Layer.id = swapIds (ls.map Layer.id) i := by
  induction ls generalizing i with
  | nil => cases i <;> rfl
  | cons a rest ih =>
    cases i with
    | zero =>
      cases rest with
      | nil => rfl
      | cons b r2 => rfl
    | succ n => simp [swapAdj, swapIds, ih]

/-- Swapping the same adjacent pair twice is the identity on the ids. -/
theorem swapIds_swapIds (ids : List String) (i : Nat) :
    swapIds (swapIds ids i) i = ids := by
  induction i generalizing ids with
  | zero => rcases ids with _ | ⟨a, _ | ⟨b, rest⟩⟩ <;> rfl
  | succ n ih =>
    rcases ids with _ | ⟨a, rest⟩
    · rfl
    · simp [swapIds, ih]

/-- A found index is inside the list. -/
theorem findIndexId_lt_length (ls : List Layer) (x : String) (i : Nat)
    (h : findIndexId ls x = some i) : i < ls.length := by
  induction ls generalizing i with
  | nil => simp [findIndexId] at h
  | cons l rest ih =>
    simp only [findIndexId] at h
    by_cases hl : (l.id == x) = true
    · rw [if_pos hl] at h
      cases h
      simp
    · rw [if_neg hl] at h
      cases hrest : findIndexId rest x with
      | none => rw [hrest] at h; simp at h
      | some j =>
        rw [hrest] at h
        simp only [Option.map_some', Option.some.injEq] at h
        subst h
        have := ih j hrest
        simpa using Nat.succ_lt_succ this

/-- After an upward swap at a found index (with distinct ids), the id is found
one position higher. -/
theorem findIndexId_swapAdj (ls : List Layer) (x : String) (i : Nat)
    (hfind : findIndexId ls x = some i) (hlt : i + 1 < ls.length)
    (hnodup : (ls.map Layer.id).Nodup) :
    findIndexId (swapAdj ls i) x = some (i + 1) := by
  induction ls generalizing i with
  | nil => simp [findIndexId] at hfind
  | cons l rest ih =>
    simp only [findIndexId] at hfind
    by_cases hl : (l.id == x) = true
    · rw [if_pos hl] at hfind
      cases hfind
      rcases rest with _ | ⟨b, rest2⟩
      · simp at hlt
      · have hlx : l.id = x := beq_iff_eq.mp hl
        have hbx : (b.id == x) = false := by
          have hne : b.id ≠ x := by
            intro hbeq
            simp only [List.map_cons, List.nodup_cons, List.mem_cons] at hnodup
            exact hnodup.1 (Or.inl (hlx.trans hbeq.symm))
          simpa [beq_iff_eq] using hne
        simp [swapAdj, findIndexId, hbx, hl]
    · rw [if_neg hl] at hfind
      obtain ⟨j, hj, rfl⟩ : ∃ j, findIndexId rest x = some j ∧ i = j + 1 := by
        cases hr : findIndexId rest x with
        | none => rw [hr] at hfind; simp at hfind
        | some j =>
          rw [hr] at hfind
          simp only [Option.map_some', Option.some.injEq] at hfind
          exact ⟨j, rfl, hfind.symm⟩
      have hlt2 : j + 1 < rest.length := by
        simpa using hlt
      have hnd2 : (rest.map Layer.id).Nodup := by
        simp only [List.map_cons, List.nodup_cons] at hnodup
        exact hnodup.2
      have hrec := ih j hj hlt2 hnd2
      simp [swapAdj, findIndexId, hl, hrec]

/-- Moving a non-topmost layer up and then down restores the id order. -/
theorem moveUpDown_map_id (m : LayerManager) (x : String) (i : Nat)
    (hfind : findIndexId m.layers x = some i) (hlt : i + 1 < m.layers.length)
    (hnodup : (m.layers.map Layer.id).Nodup) :
    (moveLayerDown (moveLayerUp m x) x).layers.map Layer.id =
      m.layers.map Layer.id := by
  have hup : (moveLayerUp m x).layers = reindex (swapAdj m.layers i) := by
    simp only [moveLayerUp, hfind]
    rw [if_neg (by omega)]
  have hfind2 : findIndexId (moveLayerUp m x).layers x = some (i + 1) := by
    rw [hup, reindex, findIndexId_reindexFrom]
    exact findIndexId_swapAdj m.layers x i hfind hlt hnodup
  have hdown : (moveLayerDown (moveLayerUp m x) x).layers =
      reindex (swapAdj (moveLayerUp m x).layers i) := by
    simp only [moveLayerDown, hfind2]
    rw [if_neg (by omega)]
    simp
  rw [hdown, reindex, reindexFrom_map_id, swapAdj_map_id, hup, reindex,
    reindexFrom_map_id, swapAdj_map_id, swapIds_swapIds]

/-- Renumbering produces exactly the zIndex run `i, i+1, ...`. -/
theorem reindexFrom_map_zIndex (i : Nat) (ls : List Layer) :
    (reindexFrom i ls).map Layer.zIndex = List.range' i ls.length := by
  induction ls generalizing i with
  | nil => rfl
  | cons l rest ih =>
    simp only [reindexFrom, List.map_cons, List.length_cons, ih]
    rw [List.range'_succ]

/-- Any renumbered stack is dense. -/
theorem denseZ_reindex (ls : List Layer) : DenseZ (reindex ls) := by
  unfold DenseZ reindex
  rw [reindexFrom_map_zIndex, reindexFrom_length, List.range_eq_range']

/-- Toggling visibility keeps the zIndex sequence. -/
theorem toggleVisibleFirst_map_zIndex (ls : List Layer) (id : String) :
    (toggleVisibleFirst ls id).map Layer.zIndex = ls.map Layer.zIndex := by
  induction ls with
  | nil => rfl
  | cons l rest ih =>
    by_cases h : (l.id == id) = true
    · simp [toggleVisibleFirst, h]
    · simp [toggleVisibleFirst, h, ih]

/-- Denseness is preserved by every stack mutation of the API. -/
theorem denseZ_applyOp (m : LayerManager) (hd : DenseZ m.layers) (op : LayerOp) :
    DenseZ (applyOp m op).layers := by
  cases op with
  | addImage src name =>
    show DenseZ (m.layers ++ [createLayer m .image name (some src)])
    unfold DenseZ at hd ⊢
    simp only [List.map_append, List.length_append, hd, List.map_cons, List.map_nil,
      List.length_cons, List.length_nil]
    simp [createLayer, List.range_succ]
  | addChat =>
    show DenseZ (addChatLayer m).2.layers
    unfold addChatLayer
    cases hfind : m.layers.find? (fun l => l.type == LayerType.chat) with
    | some l => simpa using hd
    | none =>
      simp only
      unfold DenseZ at hd ⊢
      simp only [List.map_append, List.length_append, hd, List.map_cons, List.map_nil,
        List.length_cons, List.length_nil]
      simp [createLayer, List.range_succ]
  | remove id =>
    show DenseZ (removeLayer m id).layers
    unfold removeLayer
    cases hfind : findIndexId m.layers id with
    | none => simpa using hd
    | some i =>
      simp only
      exact denseZ_reindex _
  | moveUp id =>
    show DenseZ (moveLayerUp m id).layers
    unfold moveLayerUp
    cases hfind : findIndexId m.layers id with
    | none => simpa using hd
    | some i =>
      simp only
      by_cases htop : m.layers.length - 1 ≤ i
      · rw [if_pos htop]
        exact hd
      · rw [if_neg htop]
        exact denseZ_reindex _
  | moveDown id =>
    show DenseZ (moveLayerDown m id).layers
    unfold moveLayerDown
    cases hfind : findIndexId m.layers id with
    | none => simpa using hd
    | some i =>
      simp only
      by_cases hbot : i = 0
      · rw [if_pos hbot]
        exact hd
      · rw [if_neg hbot]
        exact denseZ_reindex _
  | select id =>
    show DenseZ (selectLayer m id).layers
    unfold selectLayer
    cases hfind : m.layers.find? (fun l => l.id == id) with
    | none => simpa using hd
    | some l => simpa using hd
  | toggleVisibility id =>
    show DenseZ (toggleLayerVisibility m id).layers
    unfold toggleLayerVisibility DenseZ
    simp only [toggleVisibleFirst_map_zIndex]
    have hlen : (toggleVisibleFirst m.layers id).length = m.layers.length := by
      have := congrArg List.length (toggleVisibleFirst_map_zIndex m.layers id)
      simpa using this
    rw [hlen]
    exact hd

/-- How many chat layers the stack holds. -/
def chatCount (ls : List Layer) : Nat :=
  ls.countP (fun l => l.type == LayerType.chat)

/-- Renumbering keeps the chat count. -/
theorem chatCount_reindexFrom (i : Nat) (ls : List Layer) :
    chatCount (reindexFrom i ls) = chatCount ls := by
  induction ls generalizing i with
  | nil => rfl
  | cons l rest ih =>
    simp only [reindexFrom, chatCount, List.countP_cons] at ih ⊢
    rw [ih]

/-- Swapping keeps the chat count. -/
theorem chatCount_swapAdj (ls : List Layer) (i : Nat) :
    chatCount (swapAdj ls i) = chatCount ls := by
  induction ls generalizing i with
  | nil => cases i <;> rfl
  | cons a rest ih =>
    cases i with
    | zero =>
      cases rest with
      | nil => rfl
      | cons b r2 =>
        simp only [swapAdj, chatCount, List.countP_cons]
        omega
    | succ n =>
      simp only [swapAdj, chatCount, List.countP_cons] at ih ⊢
      rw [ih]

/-- Toggling visibility keeps the chat count. -/
theorem chatCount_toggleVisibleFirst (ls : List Layer) (id : String) :
    chatCount (toggleVisibleFirst ls id) = chatCount ls := by
  induction ls with
  | nil => rfl
  | cons l rest ih =>
    by_cases h : (l.id == id) = true
    · simp [toggleVisibleFirst, h, chatCount, List.countP_cons]
    · simp only [toggleVisibleFirst, h, if_false, Bool.false_eq_true,
        chatCount, List.countP_cons] at ih ⊢
      rw [ih]

/-- Every operation keeps the chat count at most one. -/
theorem chatCount_applyOp (m : LayerManager) (h : chatCount m.layers ≤ 1)
    (op : LayerOp) : chatCount (applyOp m op).layers ≤ 1 := by
  cases op with
  | addImage src name =>
    show chatCount (m.layers ++ [createLayer m .image name (some src)]) ≤ 1
    simp only [chatCount, List.countP_append] at h ⊢
    simpa [createLayer] using h
  | addChat =>
    show chatCount (addChatLayer m).2.layers ≤ 1
    unfold addChatLayer
    cases hfind : m.layers.find? (fun l => l.type == LayerType.chat) with
    | some l => simpa using h
    | none =>
      simp only
      have hzero : chatCount m.layers = 0 :=
        List.countP_eq_zero.mpr (List.find?_eq_none.mp hfind)
      simp only [chatCount, List.countP_append] at hzero ⊢
      simp [hzero, createLayer]
  | remove id =>
    show chatCount (removeLayer m id).layers ≤ 1
    unfold removeLayer
    cases hfind : findIndexId m.layers id with
    | none => simpa using h
    | some i =>
      simp only
      rw [reindex, chatCount_reindexFrom]
      calc chatCount (m.layers.eraseIdx i)
          ≤ chatCount m.layers :=
            (List.eraseIdx_sublist m.layers i).countP_le _
        _ ≤ 1 := h
  | moveUp id =>
    show chatCount (moveLayerUp m id).layers ≤ 1
    unfold moveLayerUp
    cases hfind : findIndexId m.layers id with
    | none => simpa using h
    | some i =>
      simp only
      by_cases htop : m.layers.length - 1 ≤ i
      · rw [if_pos htop]
        exact h
      · rw [if_neg htop]
        rw [reindex, chatCount_reindexFrom, chatCount_swapAdj]
        exact h
  | moveDown id =>
    show chatCount (moveLayerDown m id).layers ≤ 1
    unfold moveLayerDown
    cases hfind : findIndexId m.layers id with
    | none => simpa using h
    | some i =>
      simp only
      by_cases hbot : i = 0
      · rw [if_pos hbot]
        exact h
      · rw [if_neg hbot]
        rw [reindex, chatCount_reindexFrom, chatCount_swapAdj]
        exact h
  | select id =>
    show chatCount (selectLayer m id).layers ≤ 1
    unfold selectLayer
    cases hfind : m.layers.find? (fun l => l.id == id) with
    | none => simpa using h
    | some l => simpa using h
  | toggleVisibility id =>
    show chatCount (toggleLayerVisibility m id).layers ≤ 1
    unfold toggleLayerVisibility
    rw [chatCount_toggleVisibleFirst]
    exact h

/-- From the fresh manager, every operation sequence keeps at most one chat
layer in the stack. -/
theorem chatCount_runOps (ops : List LayerOp) :
    chatCount (runOps ops).layers ≤ 1 := by
  suffices h : ∀ m, chatCount m.layers ≤ 1 →
      chatCount (ops.foldl applyOp m).layers ≤ 1 by
    exact h initManager (by simp [initManager, chatCount])
  induction ops with
  | nil => intro m hm; simpa using hm
  | cons op rest ih =>
    intro m hm
    exact ih _ (chatCount_applyOp m hm op)

/-- C6: `addChatLayer` is idempotent — when a chat layer exists it returns that
layer and leaves the manager unchanged — and after any operation sequence from
the fresh manager at most one chat layer exists in the stack. -/
theorem addChatLayer_idem (m : LayerManager) (l : Layer) (ops : List LayerOp)
    (hl : m.layers.find? (fun l2 => l2.type == LayerType.chat) = some l) :
    addChatLayer m = (l, m) ∧ chatCount (runOps ops).layers ≤ 1 := by
  constructor
  · simp [addChatLayer, hl]
  · exact chatCount_runOps ops

/-- The chat layer created on the fresh manager. -/
def chatLayer0 : Layer := createLayer initManager .chat "Sohbet Metni" none

/-- The manager holding exactly that chat layer. -/
def mC6 : LayerManager := (addChatLayer initManager).2

/-- Witness for C6 at a concrete input: adding a chat layer twice returns the
first chat layer and changes nothing. -/
theorem addChatLayer_idem_witness :
    addChatLayer mC6 = (chatLayer0, mC6) ∧
    chatCount (runOps [LayerOp.addChat, LayerOp.addChat]).layers ≤ 1 :=
  addChatLayer_idem mC6 chatLayer0 [LayerOp.addChat, LayerOp.addChat] rfl

/-- C4 (amended): moving a layer up and then down restores the original id
order provided the layer is not already topmost (on the topmost layer
`moveLayerUp` is a no-op while `moveLayerDown` still swaps, changing the
order), and every stack mutation keeps the zIndex values a dense `[0, N)`
permutation equal to the stack order. -/
theorem moveLayerUpDown_restore (m : LayerManager) (x : String) (i : Nat)
    (hnodup : (m.layers.map Layer.id).Nodup)
    (hfind : findIndexId m.layers x = some i)
    (hlt : i + 1 < m.layers.length)
    (hdense : DenseZ m.layers) :
    (moveLayerDown (moveLayerUp m x) x).layers.map Layer.id =
      m.layers.map Layer.id ∧
    ∀ op, DenseZ (applyOp m op).layers :=
  ⟨moveUpDown_map_id m x i hfind hlt hnodup, denseZ_applyOp m hdense⟩

/-- A two-image-layer manager (ids layer_0 below, layer_1 on top,
layer_1 selected). -/
def mC4 : LayerManager :=
  runOps [LayerOp.addImage "imgA" "A", LayerOp.addImage "imgB" "B"]

/-- Witness for C4 (amended) at a concrete input: moving the bottom layer up
then down restores the order, and a removal keeps the stack dense. -/
theorem moveLayerUpDown_restore_witness :
    (moveLayerDown (moveLayerUp mC4 "layer_0") "layer_0").layers.map Layer.id =
      mC4.layers.map Layer.id ∧
    DenseZ (applyOp mC4 (LayerOp.remove "layer_0")).layers := by
  have h := moveLayerUpDown_restore mC4 "layer_0" 0 (by decide) rfl (by decide)
    (by unfold DenseZ; rfl)
  exact ⟨h.1, h.2 (LayerOp.remove "layer_0")⟩

/-- Counterexample to C4 as stated: on the topmost layer, `moveLayerUp` is a
no-op but the following `moveLayerDown` swaps it below, so the pair does not
restore the original order. -/
theorem moveLayerUpDown_top_changes :
    findIndexId mC4.layers "layer_1" = some 1 ∧
    (moveLayerDown (moveLayerUp mC4 "layer_1") "layer_1").layers.map Layer.id ≠
      mC4.layers.map Layer.id := by
  constructor
  · rfl
  · decide

/-- The last element of a list is a member. -/
theorem getLast?_mem_list {α : Type} :
    ∀ (ls : List α) (a : α), ls.getLast? = some a → a ∈ ls
  | [], a, h => by simp at h
  | [b], a, h => by
    simp only [List.getLast?_singleton, Option.some.injEq] at h
    simp [h]
  | b :: c :: rest, a, h => by
    rw [List.getLast?_cons_cons] at h
    exact List.mem_cons_of_mem b (getLast?_mem_list (c :: rest) a h)

/-- C5: removing the currently selected layer leaves the selection either
empty (empty remaining stack) or on a layer present in the remaining stack. -/
theorem removeLayer_selection (m : LayerManager) (id : String) (i : Nat)
    (hsel : m.selectedLayerId = some id)
    (hfind : findIndexId m.layers id = some i) :
    ((removeLayer m id).layers = [] ∧ (removeLayer m id).selectedLayerId = none) ∨
    (∃ l, l ∈ (removeLayer m id).layers ∧
      (removeLayer m id).selectedLayerId = some l.id) := by
  unfold removeLayer
  simp only [hfind, hsel, if_pos rfl]
  cases hlast : (reindex (m.layers.eraseIdx i)).getLast? with
  | none =>
    left
    refine ⟨?_, by simp [hlast]⟩
    cases hls : reindex (m.layers.eraseIdx i) with
    | nil => rfl
    | cons hd tl =>
      rw [hls] at hlast
      simp [List.getLast?_eq_none_iff] at hlast
  | some topmost =>
    right
    exact ⟨topmost, getLast?_mem_list _ topmost hlast, by simp [hlast]⟩

/-- Witness for C5 at a concrete input: removing the selected top layer of the
two-layer manager re-selects the remaining layer. -/
theorem removeLayer_selection_witness :
    ((removeLayer mC4 "layer_1").layers = [] ∧
      (removeLayer mC4 "layer_1").selectedLayerId = none) ∨
    (∃ l, l ∈ (removeLayer mC4 "layer_1").layers ∧
      (removeLayer mC4 "layer_1").selectedLayerId = some l.id) :=
  removeLayer_selection mC4 "layer_1" 1 rfl rfl

end ChatlogMagician
